import Mathlib

/-!
Shallow embedding of the dungeon simulation core of `src/main.rs`
(a turn-based roguelike: map generation, visibility-gated AI, combat
and death resolution, inventory pickup).

Conventions of the embedding:
* Rust `i32` values are modelled as `Int` (no arithmetic in the program
  approaches the 2^31 overflow boundary on the inputs the theorems use,
  and the source relies on non-wrapping arithmetic).
* `&mut` mutation is modelled by explicit state passing: a Rust method
  `fn f(&mut self, ...)` becomes a Lean function `Object → ... → Object`
  (returning the updated receiver, together with any other mutated
  arguments such as the message log).
* The tcod presentation layer (rendering, key decoding, the modal
  inventory menu, fullscreen) is external to the core; it enters the
  embedding only as data: a `Key` value, an oracle for the menu
  selection, a `Bool` fullscreen flag, and an opaque field-of-view
  predicate `Int → Int → Bool`.
* `Vec<Vec<Tile>>` (the type alias `Map`) is embedded functionally as
  `Int → Int → Tile`; the carving procedures become the extensional
  effect of the source's loops.
-/

namespace Dragonslayer

/-- Embeds `tcod::colors::Color { r, g, b }` (only used as inert message/display data). -/
structure Color where
  r : Nat
  g : Nat
  b : Nat
deriving DecidableEq, Repr

namespace colors
def WHITE : Color := ⟨255, 255, 255⟩
def RED : Color := ⟨255, 0, 0⟩
def GREEN : Color := ⟨0, 255, 0⟩
def ORANGE : Color := ⟨255, 127, 0⟩
def DARK_RED : Color := ⟨191, 0, 0⟩
def LIGHT_VIOLET : Color := ⟨159, 63, 255⟩
def DESATURATED_GREEN : Color := ⟨63, 127, 63⟩
def DARKER_GREEN : Color := ⟨0, 95, 0⟩
def VIOLET : Color := ⟨127, 0, 255⟩
end colors

/-- Embeds `const MSG_HEIGHT: usize = PANEL_HEIGHT as usize - 1` with `PANEL_HEIGHT = 7`. -/
def MSG_HEIGHT : Nat := 6

/-- Embeds `const PLAYER: usize = 0`. -/
def PLAYER : Nat := 0

/-- Embeds `const HEAL_AMOUNT: i32 = 4`. -/
def HEAL_AMOUNT : Int := 4

/-- Embeds `type Messages = Vec<(String, Color)>`. -/
def Messages := List (String × Color)
deriving DecidableEq

/-- Embeds `fn message(...)`: if the buffer already holds `MSG_HEIGHT` lines the
oldest is removed, then the new line is pushed. -/
def message (messages : Messages) (text : String) (color : Color) : Messages :=
  let messages : List (String × Color) :=
    if List.length messages = MSG_HEIGHT then List.drop 1 messages else messages
  messages ++ [(text, color)]

/-- Embeds `enum DeathCallBack { Player, Monster }`. -/
inductive DeathCallBack where
  | Player
  | Monster
deriving DecidableEq, Repr

/-- Embeds `struct Fighter { max_hp, hp, defense, power, on_death }`. -/
structure Fighter where
  max_hp : Int
  hp : Int
  defense : Int
  power : Int
  on_death : DeathCallBack
deriving DecidableEq, Repr

/-- Embeds `struct Ai;` (marker capability). -/
inductive Ai where
  | mk
deriving DecidableEq, Repr

/-- Embeds `enum Item { Heal }`. -/
inductive Item where
  | Heal
deriving DecidableEq, Repr

/-- Embeds `enum UseResult { UsedUp, Cancelled }`. -/
inductive UseResult where
  | UsedUp
  | Cancelled
deriving DecidableEq, Repr

/-- Embeds `struct Object` with its three optional capabilities. -/
structure Object where
  x : Int
  y : Int
  char : Char
  color : Color
  name : String
  blocks : Bool
  alive : Bool
  fighter : Option Fighter
  ai : Option Ai
  item : Option Item
deriving DecidableEq, Repr

/-- Embeds `Object::pos`. -/
def Object.pos (o : Object) : Int × Int := (o.x, o.y)

/-- Embeds `Object::set_pos`. -/
def Object.set_pos (o : Object) (x y : Int) : Object := { o with x := x, y := y }

/-- Embeds `fn player_death`: message, then turn the player glyph into a corpse.
The Fighter capability is NOT removed. -/
def player_death (player : Object) (messages : Messages) : Object × Messages :=
  let messages := message messages "You died!" colors.RED
  ({ player with char := '%', color := colors.DARK_RED }, messages)

/-- Embeds `fn monster_death`: message (with the pre-rename name), corpse glyph,
non-blocking, Fighter and Ai stripped, renamed to "remains of X". -/
def monster_death (monster : Object) (messages : Messages) : Object × Messages :=
  let messages := message messages (monster.name ++ " is dead!") colors.ORANGE
  ({ monster with
      char := '%'
      color := colors.DARK_RED
      blocks := false
      fighter := none
      ai := none
      name := "remains of " ++ monster.name }, messages)

/-- Embeds `DeathCallBack::callback`: closed two-way dispatch. -/
def DeathCallBack.callback : DeathCallBack → Object → Messages → Object × Messages
  | .Player => player_death
  | .Monster => monster_death

/-- Embeds `Object::take_damage`: subtract positive damage from hp (no floor at
zero), then, if a Fighter is present with `hp <= 0`, clear `alive` and run
the death callback. -/
def Object.take_damage (o : Object) (damage : Int) (messages : Messages) :
    Object × Messages :=
  let o :=
    match o.fighter with
    | some fighter =>
        if damage > 0 then { o with fighter := some { fighter with hp := fighter.hp - damage } }
        else o
    | none => o
  match o.fighter with
  | some fighter =>
      if fighter.hp ≤ 0 then fighter.on_death.callback { o with alive := false } messages
      else (o, messages)
  | none => (o, messages)

/-- Embeds `Object::heal`: add `amount` to hp, clamping at `max_hp`. -/
def Object.heal (o : Object) (amount : Int) : Object :=
  match o.fighter with
  | some fighter =>
      let fighter := { fighter with hp := fighter.hp + amount }
      let fighter := if fighter.hp > fighter.max_hp then { fighter with hp := fighter.max_hp } else fighter
      { o with fighter := some fighter }
  | none => o

/-- Embeds `Object::attack`: `damage = self.fighter.map_or(0, power) -
target.fighter.map_or(0, defense)`; positive damage is applied through
`take_damage`, otherwise a "no effect" message is logged and the target is
untouched. Returns the (possibly) updated target and message log (the
attacker itself is not mutated). -/
def Object.attack (a : Object) (target : Object) (messages : Messages) :
    Object × Messages :=
  let damage := (match a.fighter with | some f => f.power | none => 0)
      - (match target.fighter with | some f => f.defense | none => 0)
  if damage > 0 then
    let messages := message messages
      (a.name ++ " attacks " ++ target.name ++ " for " ++ toString damage ++ " hit points.")
      colors.WHITE
    target.take_damage damage messages
  else
    (target, message messages
      (a.name ++ " attacks " ++ target.name ++ " but it has no effect!") colors.WHITE)

/-- The `Object` a Rust slice-indexing panic would hit past the end; list
indexing in the embedding defaults to it (every call site the theorems use
is in bounds). -/
def defaultObject : Object :=
  ⟨0, 0, ' ', colors.WHITE, "", false, false, none, none, none⟩

instance : Inhabited Object := ⟨defaultObject⟩

/-- Embeds `objects[i]` on the entity registry. -/
def objGet (objects : List Object) (i : Nat) : Object :=
  objects.getD i defaultObject

/-- Embeds `struct Tile { blocked, block_sight, explored }`. -/
structure Tile where
  blocked : Bool
  block_sight : Bool
  explored : Bool
deriving DecidableEq, Repr

/-- Embeds `Tile::empty`. -/
def Tile.empty : Tile := ⟨false, false, false⟩

/-- Embeds `Tile::wall`. -/
def Tile.wall : Tile := ⟨true, false, true⟩

/-- Embeds `type Map = Vec<Vec<Tile>>`, embedded functionally: the grid indexed as
`map[x][y]`. (Named `GameMap` because `Map` would shadow common names.) -/
def GameMap := Int → Int → Tile

/-- Embeds `fn is_blocked`: terrain first, then any blocking object on the tile. -/
def is_blocked (x y : Int) (m : GameMap) (objects : List Object) : Bool :=
  (m x y).blocked ||
    objects.any (fun o => o.blocks && (o.x == x && o.y == y))

/-- Embeds `fn move_by`: move `objects[id]` by `(dx, dy)` unless the destination is
blocked. -/
def move_by (id : Nat) (dx dy : Int) (m : GameMap) (objects : List Object) :
    List Object :=
  let o := objGet objects id
  if is_blocked (o.x + dx) (o.y + dy) m objects then objects
  else objects.set id (o.set_pos (o.x + dx) (o.y + dy))

/-- Embeds `Object::distance_to` squared: `distance_to` itself returns the `f32`
square root of this value. -/
def Object.dist_sq (a b : Object) : Int :=
  (b.x - a.x) ^ 2 + (b.y - a.y) ^ 2

/-- Embeds `fn move_towards`: normalize the displacement to the target to unit
length and round each axis. The source computes `(dx as f32 / distance).round()`
with `distance = sqrt(dx^2+dy^2)` in `f32`; at map-scale integer inputs that
f32 computation is exact enough that the rounded axis step is `sign dx` exactly
when `4*dx^2 ≥ dx^2 + dy^2` (i.e. `|dx|/distance ≥ 1/2`; a tie would need
`dy^2 = 3*dx^2`, impossible for nonzero integers) and `0` otherwise, which is
how the step is embedded here. (For `dx = dy = 0` the source divides by zero
and `NaN as i32` is `0`, matching `Int.sign 0 = 0`.) -/
def move_towards (id : Nat) (target_x target_y : Int) (m : GameMap)
    (objects : List Object) : List Object :=
  let o := objGet objects id
  let dx := target_x - o.x
  let dy := target_y - o.y
  let sq := dx * dx + dy * dy
  let step_x := if 4 * (dx * dx) ≥ sq then dx.sign else 0
  let step_y := if 4 * (dy * dy) ≥ sq then dy.sign else 0
  move_by id step_x step_y m objects

/-- Embeds `fn mut_two`: `assert!(first_index != second_index)`, then split the slice
and return both elements. The assertion failure (and the slice-indexing panic
when an index is out of bounds) is modelled by `none`. -/
def mut_two (first_index second_index : Nat) (items : List Object) :
    Option (Object × Object) :=
  if first_index ≠ second_index then
    match items[first_index]?, items[second_index]? with
    | some a, some b => some (a, b)
    | _, _ => none
  else none

/-- The attack pattern shared by both combat call sites: fetch attacker and
target through `mut_two`, run `Object.attack`, and write the mutated target
back at its index. The `none` arm is the unreachable assertion failure. -/
def attack_pair (i j : Nat) (objects : List Object) (messages : Messages) :
    List Object × Messages :=
  match mut_two i j objects with
  | some (a, t) =>
      let (t', messages') := a.attack t messages
      (objects.set j t', messages')
  | none => (objects, messages)

/-- Embeds `fn ai_take_turn`: outside the player's FOV do nothing; at squared
distance ≥ 4 (`distance_to >= 2.0`) step towards the player; otherwise attack
the player when it has a Fighter with positive hp. `fov` is the opaque
tcod FOV predicate. -/
def ai_take_turn (monster_id : Nat) (m : GameMap) (objects : List Object)
    (fov : Int → Int → Bool) (messages : Messages) : List Object × Messages :=
  let mo := objGet objects monster_id
  if fov mo.x mo.y then
    if mo.dist_sq (objGet objects PLAYER) ≥ 4 then
      let p := objGet objects PLAYER
      (move_towards monster_id p.x p.y m objects, messages)
    else if (match (objGet objects PLAYER).fighter with
             | some f => decide (f.hp > 0)
             | none => false) then
      attack_pair monster_id PLAYER objects messages
    else (objects, messages)
  else (objects, messages)

/-- Embeds `fn player_move_or_attack`: find a Fighter-capable object at the
destination tile; attack it if found, otherwise move. -/
def player_move_or_attack (dx dy : Int) (m : GameMap) (objects : List Object)
    (messages : Messages) : List Object × Messages :=
  let x := (objGet objects PLAYER).x + dx
  let y := (objGet objects PLAYER).y + dy
  match objects.findIdx? (fun o => o.fighter.isSome && (o.x == x && o.y == y)) with
  | some target_id => attack_pair PLAYER target_id objects messages
  | none => (move_by PLAYER dx dy m objects, messages)

/-- Embeds `Vec::swap_remove(i)`: replace index `i` with the last element, then pop
the last element. -/
def swap_remove (l : List Object) (i : Nat) : List Object :=
  (l.set i (l.getLast?.getD defaultObject)).dropLast

/-- Embeds `fn pick_item_up`: reject at inventory capacity 26 (registry untouched),
otherwise swap-remove the object from the registry and push it on the
inventory. Returns `(objects, inventory, messages)`. -/
def pick_item_up (object_id : Nat) (objects : List Object)
    (inventory : List Object) (messages : Messages) :
    List Object × List Object × Messages :=
  if inventory.length ≥ 26 then
    (objects, inventory,
      message messages
        ("Your inventory is full, cannot pick up " ++ (objGet objects object_id).name ++ ".")
        colors.RED)
  else
    let item := objGet objects object_id
    let objects := swap_remove objects object_id
    let messages := message messages ("You picked up a " ++ item.name ++ "!") colors.GREEN
    (objects, inventory ++ [item], messages)

/-- Embeds `fn cast_heal`: cancelled at full health (or with no Fighter), otherwise
heal the player by `HEAL_AMOUNT`. Returns `(objects, messages, result)`. -/
def cast_heal (_inventory_id : Nat) (objects : List Object)
    (messages : Messages) : List Object × Messages × UseResult :=
  match (objGet objects PLAYER).fighter with
  | some fighter =>
      if fighter.hp = fighter.max_hp then
        (objects, message messages "You are already at full health" colors.RED, .Cancelled)
      else
        let messages := message messages "Your wounds start to feel better!" colors.LIGHT_VIOLET
        (objects.set PLAYER ((objGet objects PLAYER).heal HEAL_AMOUNT), messages, .UsedUp)
  | none => (objects, messages, .Cancelled)

/-- Embeds `fn use_item`: dispatch on the item variant (only `Heal`); a used-up item
is removed from the inventory, a cancelled use logs "Cancelled". Returns
`(inventory, objects, messages)`. -/
def use_item (inventory_id : Nat) (inventory : List Object)
    (objects : List Object) (messages : Messages) :
    List Object × List Object × Messages :=
  match (objGet inventory inventory_id).item with
  | some _item =>
      let (objects, messages, result) := cast_heal inventory_id objects messages
      match result with
      | .UsedUp => (inventory.eraseIdx inventory_id, objects, messages)
      | .Cancelled => (inventory, objects, message messages "Cancelled" colors.WHITE)
  | none =>
      (inventory, objects,
        message messages ("The " ++ (objGet inventory inventory_id).name ++ " cannot be used.")
          colors.WHITE)

/-- Embeds `enum PlayerAction`. -/
inductive PlayerAction where
  | TookTurn
  | DidntTakeTurn
  | Exit
deriving DecidableEq, Repr

/-- The key events distinguished by the `match` in `handle_keys` (decoding
tcod key codes is presentation; `Other` is every unhandled key, including the
Rust arms that require `player_alive` when the player is dead — those fall to
the same wildcard arm). -/
inductive Key where
  | AltEnter
  | Escape
  | Up
  | Down
  | Left
  | Right
  | G
  | I
  | Other
deriving DecidableEq, Repr

/-- The mutable state `handle_keys` touches: the fullscreen flag (for
`tcod.root`), the entity registry, the message log and the inventory. -/
structure GameState where
  fullscreen : Bool
  objects : List Object
  messages : Messages
  inventory : List Object

/-- Embeds `fn handle_keys`. `menuChoice` is the oracle for the modal
`inventory_menu` UI; as in the source it yields an index only when the
inventory is non-empty and the index is below the option count. -/
def handle_keys (key : Key) (menuChoice : Option Nat) (gmap : GameMap)
    (s : GameState) : GameState × PlayerAction :=
  let player_alive := (objGet s.objects PLAYER).alive
  match key, player_alive with
  | .AltEnter, _ => ({ s with fullscreen := !s.fullscreen }, .DidntTakeTurn)
  | .Escape, _ => (s, .Exit)
  | .Up, true =>
      let (objects, messages) := player_move_or_attack 0 (-1) gmap s.objects s.messages
      ({ s with objects := objects, messages := messages }, .TookTurn)
  | .Down, true =>
      let (objects, messages) := player_move_or_attack 0 1 gmap s.objects s.messages
      ({ s with objects := objects, messages := messages }, .TookTurn)
  | .Left, true =>
      let (objects, messages) := player_move_or_attack (-1) 0 gmap s.objects s.messages
      ({ s with objects := objects, messages := messages }, .TookTurn)
  | .Right, true =>
      let (objects, messages) := player_move_or_attack 1 0 gmap s.objects s.messages
      ({ s with objects := objects, messages := messages }, .TookTurn)
  | .G, true =>
      let ppos := (objGet s.objects PLAYER).pos
      match s.objects.findIdx?
          (fun o => (o.x == ppos.1 && o.y == ppos.2) && o.item.isSome) with
      | some item_id =>
          let (objects, inventory, messages) :=
            pick_item_up item_id s.objects s.inventory s.messages
          ({ s with objects := objects, inventory := inventory, messages := messages },
            .DidntTakeTurn)
      | none => (s, .DidntTakeTurn)
  | .I, true =>
      let inventory_index :=
        match menuChoice with
        | some i => if 0 < s.inventory.length ∧ i < s.inventory.length then some i else none
        | none => none
      match inventory_index with
      | some inventory_index =>
          let (inventory, objects, messages) :=
            use_item inventory_index s.inventory s.objects s.messages
          ({ s with objects := objects, inventory := inventory, messages := messages },
            .DidntTakeTurn)
      | none => (s, .DidntTakeTurn)
  | _, _ => (s, .DidntTakeTurn)

/-- Embeds `struct Rect { x1, x2, y1, y2 }`. -/
structure Rect where
  x1 : Int
  x2 : Int
  y1 : Int
  y2 : Int
deriving DecidableEq, Repr

/-- Embeds `Rect::new(x, y, w, h)`. -/
def Rect.new (x y w h : Int) : Rect := ⟨x, x + w, y, y + h⟩

/-- Embeds `Rect::center`: integer midpoint of both axes. The source divides `i32`
by 2 (truncation towards zero); `Int.tdiv` is that division. -/
def Rect.center (r : Rect) : Int × Int :=
  (Int.tdiv (r.x1 + r.x2) 2, Int.tdiv (r.y1 + r.y2) 2)

/-- Embeds `Rect::intersects_with`: inclusive interval overlap on both axes. -/
def Rect.intersects_with (r other : Rect) : Bool :=
  decide (r.x1 ≤ other.x2) && decide (r.x2 ≥ other.x1) &&
    decide (r.y1 ≤ other.y2) && decide (r.y2 ≥ other.y1)

/-- Embeds `fn create_room`: carve the strict interior of the rectangle (the source
loops `x` over `x1+1..x2` and `y` over `y1+1..y2`, setting `Tile::empty`). -/
def create_room (room : Rect) (m : GameMap) : GameMap :=
  fun x y =>
    if room.x1 < x ∧ x < room.x2 ∧ room.y1 < y ∧ y < room.y2 then Tile.empty
    else m x y

/-- Embeds `fn create_h_tunnel`: carve the inclusive horizontal segment between `x1`
and `x2` at row `y`. -/
def create_h_tunnel (x1 x2 y : Int) (m : GameMap) : GameMap :=
  fun a b =>
    if min x1 x2 ≤ a ∧ a ≤ max x1 x2 ∧ b = y then Tile.empty else m a b

/-- Embeds `fn create_v_tunnel`: carve the inclusive vertical segment between `y1`
and `y2` at column `x`. -/
def create_v_tunnel (y1 y2 x : Int) (m : GameMap) : GameMap :=
  fun a b =>
    if a = x ∧ min y1 y2 ≤ b ∧ b ≤ max y1 y2 then Tile.empty else m a b

/-- One iteration's random draws in the `make_map` loop: the candidate
rectangle (the four `gen_range` calls) and the `rand::random()` coin that
picks the corridor dog-leg orientation. -/
structure RoomDraw where
  room : Rect
  coin : Bool
deriving DecidableEq, Repr

/-- The `for _ in 0..MAX_ROOMS` loop of `fn make_map`, with the accepted
rooms accumulated most-recent-first (the source pushes onto the end of
`rooms` and reads the previous room as `rooms[rooms.len() - 1]`; here the
previous room is the head). `place_objects` and the player-spawn assignment
mutate only the entity registry, never a tile, so they do not appear in this
map-level embedding. -/
def make_map_loop : List RoomDraw → List Rect → GameMap → List Rect × GameMap
  | [], rooms, m => (rooms, m)
  | draw :: rest, rooms, m =>
      if rooms.any (fun other_room => draw.room.intersects_with other_room) then
        make_map_loop rest rooms m
      else
        let m := create_room draw.room m
        let m :=
          match rooms with
          | [] => m
          | prev :: _ =>
              let (prev_x, prev_y) := prev.center
              let (new_x, new_y) := draw.room.center
              if draw.coin then
                create_v_tunnel prev_y new_y new_x (create_h_tunnel prev_x new_x prev_y m)
              else
                create_h_tunnel prev_x new_x new_y (create_v_tunnel prev_y new_y prev_x m)
        make_map_loop rest (draw.room :: rooms) m

/-- Embeds `fn make_map`: start from an all-wall grid and run the room loop. The
first component lists the accepted rooms (most recent first: the first
accepted room — the player-spawn room — is the last element). -/
def make_map (draws : List RoomDraw) : List Rect × GameMap :=
  make_map_loop draws [] (fun _ _ => Tile.wall)

/-- A tile a walk may stand on: not blocked. -/
def carvedAt (m : GameMap) (p : Int × Int) : Prop :=
  (m p.1 p.2).blocked = false

instance (m : GameMap) (p : Int × Int) : Decidable (carvedAt m p) := by
  unfold carvedAt; infer_instance

/-- Four-adjacency of grid cells. -/
def Adj (p q : Int × Int) : Prop :=
  (p.1 - q.1).natAbs + (p.2 - q.2).natAbs = 1

/-- One step of a walk across carved tiles. -/
def MapStep (m : GameMap) (p q : Int × Int) : Prop :=
  carvedAt m p ∧ carvedAt m q ∧ Adj p q

/-- Reachability through non-blocked tiles only. -/
def Reachable (m : GameMap) (p q : Int × Int) : Prop :=
  Relation.ReflTransGen (MapStep m) p q

/-- Embeds `main`, line 924: `if player_action == PlayerAction::Exit { break }`. -/
def breaksLoop (a : PlayerAction) : Bool := a == .Exit

/-- Embeds `main`, line 929: the AI pass over the registry runs exactly when
`objects[PLAYER].alive && player_action != PlayerAction::DidntTakeTurn`
(and the loop body was not already left by the `Exit` break). -/
def monstersAct (player_alive : Bool) (a : PlayerAction) : Bool :=
  player_alive && !(a == .DidntTakeTurn)

/-- The player as `main` creates it (concrete instance for witnesses). -/
def samplePlayer : Object :=
  ⟨1, 1, '@', colors.WHITE, "player", true, true,
    some ⟨30, 30, 2, 5, .Player⟩, none, none⟩

/-- An orc as `place_objects` creates it (concrete instance for witnesses). -/
def sampleOrc : Object :=
  ⟨2, 1, 'o', colors.DESATURATED_GREEN, "orc", true, true,
    some ⟨10, 10, 0, 3, .Monster⟩, some .mk, none⟩

/-- A troll as `place_objects` creates it. -/
def sampleTroll : Object :=
  ⟨3, 1, 'T', colors.DARKER_GREEN, "troll", true, true,
    some ⟨16, 16, 1, 4, .Monster⟩, some .mk, none⟩

/-- A healing potion as `place_objects` creates it. -/
def samplePotion : Object :=
  ⟨1, 1, '!', colors.VIOLET, "healing potion", false, false, none, none, some .Heal⟩

/-- The sample player worn down to 1 hp. -/
def weakPlayer : Object :=
  { samplePlayer with fighter := some ⟨30, 1, 2, 5, .Player⟩ }

/-- The sample orc worn down to 3 hp. -/
def weakOrc : Object :=
  { sampleOrc with fighter := some ⟨10, 3, 0, 3, .Monster⟩ }

/-- An orc corpse: what `monster_death` leaves of `weakOrc`. -/
def sampleCorpse : Object :=
  ⟨2, 1, '%', colors.DARK_RED, "remains of orc", false, false, none, none, none⟩

/-- The all-wall grid `make_map` starts from (concrete map for witnesses). -/
def wallMap : GameMap := fun _ _ => Tile.wall

/-- The sample orc moved out of melee range of the sample player. -/
def farOrc : Object := { sampleOrc with x := 5 }

/-- A minimal game state (concrete instance for witnesses). -/
def sampleState : GameState := ⟨false, [samplePlayer], [], []⟩

/-- A state with the player standing on a potion (concrete pick-up witness). -/
def pickupState : GameState := ⟨false, [samplePlayer, samplePotion], [], []⟩

/-- Two non-intersecting candidate rooms (concrete generator witness). -/
def sampleDraws : List RoomDraw :=
  [⟨Rect.new 0 0 2 2, true⟩, ⟨Rect.new 4 0 2 2, true⟩]

/-! Theorems settling the claims about the embedded program. -/

/-- Helper: full characterization of `Object.attack` on two Fighter-capable
objects. -/
theorem attack_spec (a t : Object) (fa ft : Fighter) (messages : Messages)
    (ha : a.fighter = some fa) (ht : t.fighter = some ft) :
    a.attack t messages =
      (if fa.power - ft.defense > 0 then
        let messages' := message messages
          (a.name ++ " attacks " ++ t.name ++ " for " ++ toString (fa.power - ft.defense) ++
            " hit points.") colors.WHITE
        let t' : Object := { t with fighter := some { ft with hp := ft.hp - (fa.power - ft.defense) } }
        if ft.hp - (fa.power - ft.defense) ≤ 0 then
          ft.on_death.callback { t' with alive := false } messages'
        else (t', messages')
      else
        (t, message messages (a.name ++ " attacks " ++ t.name ++ " but it has no effect!")
          colors.WHITE)) := by
  unfold Object.attack Object.take_damage
  rw [ha, ht]
  by_cases hd : fa.power - ft.defense > 0
  · simp only [if_pos hd]
  · simp only [if_neg hd]

/-- C3: for every attack between Fighter-capable entities, the damage is
`attacker.power - target.defense`; when positive, the target's hp is
decremented by exactly that amount (its Fighter, when it survives the death
check, is the old one with `hp := hp - damage`, and it is stripped exactly
when the new hp is ≤ 0 on a monster-variant target); when zero or negative,
the target is untouched and the "no effect" message is logged instead. -/
theorem attack_damage_formula (a t : Object) (fa ft : Fighter)
    (messages : Messages) (ha : a.fighter = some fa) (ht : t.fighter = some ft) :
    (fa.power - ft.defense > 0 →
      (a.attack t messages).1.fighter =
        (if ft.hp - (fa.power - ft.defense) ≤ 0 ∧ ft.on_death = .Monster then none
         else some { ft with hp := ft.hp - (fa.power - ft.defense) })) ∧
    (fa.power - ft.defense ≤ 0 →
      (a.attack t messages).1 = t ∧
      (a.attack t messages).2 =
        message messages (a.name ++ " attacks " ++ t.name ++ " but it has no effect!")
          colors.WHITE) := by
  rw [attack_spec a t fa ft messages ha ht]
  by_cases hd : fa.power - ft.defense > 0
  · refine ⟨fun _ => ?_, fun hle => absurd hd (by omega)⟩
    by_cases hk : ft.hp - (fa.power - ft.defense) ≤ 0
    · cases hmon : ft.on_death <;>
        simp [hd, hk, hmon, DeathCallBack.callback, monster_death, player_death]
    · simp [hd, hk]
  · refine ⟨fun h => absurd h hd, fun _ => ?_⟩
    simp [hd]

/-- C4: an attack that brings a monster-variant target's hp to ≤ 0 clears
its `alive` flag, strips both the Fighter and the Ai capability, clears
`blocks`, and renames it to `"remains of <old name>"`. -/
theorem monster_death_strips (a t : Object) (fa ft : Fighter)
    (messages : Messages) (ha : a.fighter = some fa) (ht : t.fighter = some ft)
    (_halive : t.alive = true) (hmon : ft.on_death = .Monster)
    (hdmg : fa.power - ft.defense > 0)
    (hkill : ft.hp - (fa.power - ft.defense) ≤ 0) :
    ((a.attack t messages).1.alive = false) ∧
    ((a.attack t messages).1.fighter = none) ∧
    ((a.attack t messages).1.ai = none) ∧
    ((a.attack t messages).1.blocks = false) ∧
    ((a.attack t messages).1.name = "remains of " ++ t.name) := by
  rw [attack_spec a t fa ft messages ha ht]
  simp [hdmg, hkill, hmon, DeathCallBack.callback, monster_death]

/-- C5: the death transition fires at most once — attacking an entity that
`monster_death` has already processed (its Fighter is stripped) leaves the
entity completely unchanged: no hp change, no second rename, no re-stripping. -/
theorem death_fires_at_most_once (a t0 : Object) (messages msgs0 : Messages) :
    (a.attack (monster_death t0 msgs0).1 messages).1 = (monster_death t0 msgs0).1 := by
  show (Object.attack _ _ _).1 = _
  unfold Object.attack Object.take_damage monster_death
  by_cases hd : ((match a.fighter with | some f => f.power | none => 0) - (0 : Int)) > 0
  · simp only []
    split
    · rfl
    · rfl
  · simp only []
    split
    · rfl
    · rfl

/-- C9: with the inventory at capacity (26 items), a pick-up is rejected
with the "inventory is full" message and the registry is returned unchanged
(nothing removed, no index moved). -/
theorem inventory_full_pickup_rejected (object_id : Nat)
    (objects inventory : List Object) (messages : Messages)
    (hfull : inventory.length = 26) :
    pick_item_up object_id objects inventory messages =
      (objects, inventory,
        message messages
          ("Your inventory is full, cannot pick up " ++ (objGet objects object_id).name ++ ".")
          colors.RED) := by
  unfold pick_item_up
  rw [if_pos (by omega)]

theorem inventory_full_pickup_rejected_witness :
    (List.replicate 26 samplePotion).length = 26 ∧
    pick_item_up 1 [samplePlayer, samplePotion] (List.replicate 26 samplePotion) [] =
      ([samplePlayer, samplePotion], List.replicate 26 samplePotion,
        message []
          ("Your inventory is full, cannot pick up " ++
            (objGet [samplePlayer, samplePotion] 1).name ++ ".")
          colors.RED) :=
  ⟨by decide,
    inventory_full_pickup_rejected 1 [samplePlayer, samplePotion]
      (List.replicate 26 samplePotion) [] (by decide)⟩

theorem attack_damage_formula_witness :
    (samplePlayer.attack sampleOrc []).1.fighter = some ⟨10, 5, 0, 3, .Monster⟩ := by
  have h := attack_damage_formula samplePlayer sampleOrc ⟨30, 30, 2, 5, .Player⟩
    ⟨10, 10, 0, 3, .Monster⟩ [] rfl rfl
  have h2 := h.1 (by decide)
  rw [if_neg (by decide)] at h2
  exact h2.trans (by decide)

theorem monster_death_strips_witness :
    ((samplePlayer.attack weakOrc []).1.alive = false) ∧
    ((samplePlayer.attack weakOrc []).1.fighter = none) ∧
    ((samplePlayer.attack weakOrc []).1.ai = none) ∧
    ((samplePlayer.attack weakOrc []).1.blocks = false) ∧
    ((samplePlayer.attack weakOrc []).1.name = "remains of " ++ weakOrc.name) :=
  monster_death_strips samplePlayer weakOrc ⟨30, 30, 2, 5, .Player⟩
    ⟨10, 3, 0, 3, .Monster⟩ [] rfl rfl rfl rfl (by decide) (by decide)

/-- C1 is false as stated: a troll (power 4) attacking the player at 1 hp
(defense 2) deals 2 damage and leaves the player's Fighter at hp = −1 —
`take_damage` applies the full damage with no floor at zero, and the
player-variant death transition keeps the Fighter. -/
theorem hp_nonneg_claim_false :
    ((sampleTroll.attack weakPlayer []).1.fighter.map Fighter.hp) = some (-1) ∧
      ((-1 : Int) < 0) := by
  constructor
  · rfl
  · decide

/-- C1 amended: for a target whose Fighter starts with `0 < hp ≤ maxHp`, any
Fighter the target still carries after an attack satisfies `hp ≤ maxHp`, and
on a monster-variant target also `0 < hp` (the Fighter is stripped the moment
hp falls to ≤ 0); a heal never lifts hp above `maxHp`. But hp is not floored
at zero: a player-variant target keeps its Fighter with a possibly negative
hp (see `hp_nonneg_claim_false`). -/
theorem hp_bounds_amended (a t o : Object) (fa ft : Fighter) (amount : Int)
    (messages : Messages) (ha : a.fighter = some fa) (ht : t.fighter = some ft)
    (hle : ft.hp ≤ ft.max_hp) (hpos : 0 < ft.hp) :
    (∀ g, (a.attack t messages).1.fighter = some g →
        g.hp ≤ g.max_hp ∧ (ft.on_death = .Monster → 0 < g.hp)) ∧
    (∀ g, (o.heal amount).fighter = some g → g.hp ≤ g.max_hp) := by
  constructor
  · rw [attack_spec a t fa ft messages ha ht]
    by_cases hd : fa.power - ft.defense > 0
    · by_cases hk : ft.hp - (fa.power - ft.defense) ≤ 0
      · cases hmon : ft.on_death
        · intro g hg
          simp [hd, hk, hmon, DeathCallBack.callback, player_death] at hg
          subst hg
          constructor
          · simpa using by omega
          · intro habs; exact absurd habs (by decide)
        · intro g hg
          simp [hd, hk, hmon, DeathCallBack.callback, monster_death] at hg
      · intro g hg
        simp [hd, hk] at hg
        subst hg
        exact ⟨by simpa using by omega, fun _ => by simpa using by omega⟩
    · intro g hg
      simp [hd] at hg
      rw [ht] at hg
      cases hg
      exact ⟨hle, fun _ => hpos⟩
  · intro g hg
    unfold Object.heal at hg
    cases ho : o.fighter with
    | none => rw [ho] at hg; simp at hg; rw [ho] at hg; cases hg
    | some f =>
        rw [ho] at hg
        simp only [Option.some.injEq] at hg
        by_cases hc : f.hp + amount > f.max_hp
        · simp [hc] at hg; subst hg; simp
        · simp [hc] at hg; subst hg; simpa using by omega

/-- C2: with the player alive, each movement key is classified `TookTurn`
(the tick consumes simulated time whether the step moves or attacks);
fullscreen toggling, picking up, and opening the inventory are
`DidntTakeTurn`; the quit key is `Exit`, which breaks the scheduler loop; and
a tick on which the AI pass runs (the loop not having been broken) is
necessarily a `TookTurn` tick with the player alive. -/
theorem turn_classification (menuChoice : Option Nat) (gmap : GameMap)
    (s : GameState) (halive : (objGet s.objects PLAYER).alive = true) :
    ((handle_keys .Up menuChoice gmap s).2 = .TookTurn) ∧
    ((handle_keys .Down menuChoice gmap s).2 = .TookTurn) ∧
    ((handle_keys .Left menuChoice gmap s).2 = .TookTurn) ∧
    ((handle_keys .Right menuChoice gmap s).2 = .TookTurn) ∧
    ((handle_keys .AltEnter menuChoice gmap s).2 = .DidntTakeTurn) ∧
    ((handle_keys .G menuChoice gmap s).2 = .DidntTakeTurn) ∧
    ((handle_keys .I menuChoice gmap s).2 = .DidntTakeTurn) ∧
    ((handle_keys .Escape menuChoice gmap s).2 = .Exit) ∧
    (breaksLoop .Exit = true) ∧
    (∀ (a : PlayerAction) (player_alive : Bool),
       monstersAct player_alive a = true → breaksLoop a = false →
       a = .TookTurn ∧ player_alive = true) := by
  refine ⟨?_, ?_, ?_, ?_, ?_, ?_, ?_, ?_, rfl, ?_⟩
  · simp only [handle_keys, halive]
  · simp only [handle_keys, halive]
  · simp only [handle_keys, halive]
  · simp only [handle_keys, halive]
  · simp only [handle_keys, halive]
  · simp only [handle_keys, halive]
    split <;> rfl
  · simp only [handle_keys, halive]
    rcases menuChoice with _ | i
    · rfl
    · by_cases hc : 0 < s.inventory.length ∧ i < s.inventory.length <;> simp only [hc] <;>
        split <;> rfl
  · simp only [handle_keys, halive]
  · intro a alive h1 h2
    cases a <;> cases alive <;> simp_all [monstersAct, breaksLoop]

theorem turn_classification_witness :
    ((objGet sampleState.objects PLAYER).alive = true) ∧
    (((handle_keys .Up none wallMap sampleState).2 = .TookTurn) ∧
     ((handle_keys .Down none wallMap sampleState).2 = .TookTurn) ∧
     ((handle_keys .Left none wallMap sampleState).2 = .TookTurn) ∧
     ((handle_keys .Right none wallMap sampleState).2 = .TookTurn) ∧
     ((handle_keys .AltEnter none wallMap sampleState).2 = .DidntTakeTurn) ∧
     ((handle_keys .G none wallMap sampleState).2 = .DidntTakeTurn) ∧
     ((handle_keys .I none wallMap sampleState).2 = .DidntTakeTurn) ∧
     ((handle_keys .Escape none wallMap sampleState).2 = .Exit) ∧
     (breaksLoop .Exit = true) ∧
     (∀ (a : PlayerAction) (player_alive : Bool),
        monstersAct player_alive a = true → breaksLoop a = false →
        a = .TookTurn ∧ player_alive = true)) :=
  ⟨by decide, turn_classification none wallMap sampleState (by decide)⟩

/-- Helper: what a successful `List.findIdx?` (with start index `k`) found:
the index is at least `k` and the element there satisfies the predicate. -/
theorem findIdx?_some_pred {α : Type} (p : α → Bool) :
    ∀ (xs : List α) (k i : Nat), List.findIdx? p xs k = some i →
      k ≤ i ∧ ∃ a, xs[i - k]? = some a ∧ p a = true := by
  intro xs
  induction xs with
  | nil => intro k i h; simp [List.findIdx?] at h
  | cons x xs ih =>
      intro k i h
      rw [List.findIdx?_cons] at h
      by_cases hp : p x
      · rw [if_pos hp] at h
        cases h
        exact ⟨Nat.le_refl _, x, by simp, hp⟩
      · rw [if_neg hp] at h
        obtain ⟨hk, a, ha, hpa⟩ := ih (k + 1) i h
        refine ⟨by omega, a, ?_, hpa⟩
        have : i - k = (i - (k + 1)) + 1 := by omega
        rw [this]
        simpa using ha

/-- Helper: `List.findIdx?` from the start: the found element is in range and
satisfies the predicate. -/
theorem findIdx?_found {α : Type} (p : α → Bool) (xs : List α) (i : Nat)
    (h : List.findIdx? p xs = some i) : ∃ a, xs[i]? = some a ∧ p a = true := by
  have := findIdx?_some_pred p xs 0 i h
  simpa using this.2

/-- C8: `mut_two` rejects equal indices (the `assert!` arm, modelled by
`none`), and at both combat call sites the two indices are always distinct:
in `player_move_or_attack` the target is found at the destination tile, one
step away from the player's own tile, so its index cannot be `PLAYER`; in
`ai_take_turn` the acting entity carries an Ai capability and the player has
none, so `monster_id ≠ PLAYER`. -/
theorem mut_two_attack_sites_safe :
    (∀ (i : Nat) (objects : List Object), mut_two i i objects = none) ∧
    (∀ (dx dy : Int) (objects : List Object) (tid : Nat),
       ¬(dx = 0 ∧ dy = 0) →
       List.findIdx?
         (fun o => o.fighter.isSome &&
           (o.x == (objGet objects PLAYER).x + dx && o.y == (objGet objects PLAYER).y + dy))
         objects = some tid →
       tid ≠ PLAYER) ∧
    (∀ (objects : List Object) (monster_id : Nat),
       (objGet objects PLAYER).ai = none →
       (objGet objects monster_id).ai.isSome = true →
       monster_id ≠ PLAYER) := by
  refine ⟨?_, ?_, ?_⟩
  · intro i objects
    unfold mut_two
    simp
  · intro dx dy objects tid hdxy hfind htid
    obtain ⟨a, ha, hpa⟩ := findIdx?_found _ objects tid hfind
    rw [htid] at ha
    have hga : objGet objects PLAYER = a := by
      unfold objGet
      rw [List.getD_eq_getElem?_getD, ha]
      rfl
    rw [hga] at hpa
    simp only [Bool.and_eq_true, beq_iff_eq] at hpa
    exact hdxy ⟨by omega, by omega⟩
  · intro objects monster_id hplayer hmons heq
    subst heq
    rw [hplayer] at hmons
    simp at hmons

theorem mut_two_attack_sites_safe_witness :
    (mut_two 1 1 [samplePlayer, sampleOrc] = none) ∧
    (¬((1 : Int) = 0 ∧ (0 : Int) = 0)) ∧
    ((1 : Nat) ≠ PLAYER) :=
  ⟨mut_two_attack_sites_safe.1 1 [samplePlayer, sampleOrc],
    by decide,
    mut_two_attack_sites_safe.2.1 1 0 [samplePlayer, sampleOrc] 1 (by decide) (by decide)⟩

/-- Helper: `Vec::swap_remove` at a nonzero in-range index leaves index 0
untouched. -/
theorem swap_remove_keeps_head (l : List Object) (i : Nat) (hi : i ≠ 0)
    (hlen : i < l.length) : (swap_remove l i)[0]? = l[0]? := by
  unfold swap_remove
  rw [List.getElem?_dropLast, List.length_set, if_pos (by omega)]
  exact List.getElem?_set_ne (by omega)

/-- C10: a pick-up never disturbs registry index 0 — the object the `g` key
search finds carries an Item capability and the player does not, so the
swap-removal happens at an index ≥ 1 and relocates only the last element;
the player is still at index 0 afterwards. -/
theorem pickup_keeps_player_at_zero (menuChoice : Option Nat) (gmap : GameMap)
    (s : GameState) (player : Object)
    (hp : s.objects[0]? = some player) (hitem : player.item = none) :
    ((handle_keys .G menuChoice gmap s).1.objects)[0]? = some player := by
  cases halive : (objGet s.objects PLAYER).alive
  · simp only [handle_keys, halive]
    exact hp
  · simp only [handle_keys, halive]
    split
    · rename_i item_id hfind
      simp only []
      obtain ⟨a, ha, hpa⟩ := findIdx?_found _ s.objects item_id hfind
      have hne : item_id ≠ 0 := by
        intro h0
        subst h0
        rw [hp] at ha
        have haa : player = a := Option.some.inj ha
        rw [← haa] at hpa
        simp only [Bool.and_eq_true, Option.isSome_iff_exists] at hpa
        obtain ⟨_, it, hit⟩ := hpa
        rw [hitem] at hit
        cases hit
      have hlt : item_id < s.objects.length := by
        rcases List.getElem?_eq_some_iff.mp ha with ⟨h, _⟩
        exact h
      unfold pick_item_up
      by_cases hful : s.inventory.length ≥ 26
      · rw [if_pos hful]
        exact hp
      · rw [if_neg hful]
        simp only []
        rw [swap_remove_keeps_head s.objects item_id hne hlt]
        exact hp
    · exact hp

theorem pickup_keeps_player_at_zero_witness :
    (pickupState.objects[0]? = some samplePlayer) ∧ (samplePlayer.item = none) ∧
    ((handle_keys .G none wallMap pickupState).1.objects)[0]? = some samplePlayer :=
  ⟨by decide, rfl,
    pickup_keeps_player_at_zero none wallMap pickupState samplePlayer (by decide) rfl⟩

/-- C6: an AI entity's turn. Outside the player's FOV it does nothing. In
FOV at squared Euclidean distance ≥ 4 (`distance_to >= 2.0`) it attempts
exactly one step, whose direction comes from normalizing the displacement to
the player and rounding each axis independently (the step is dropped — the
monster stays put — when the destination is blocked by terrain or a blocking
object, as the final conjunct makes explicit). In melee range it attacks the
player exactly when the player has a Fighter with hp > 0. -/
theorem ai_decision (monster_id : Nat) (m : GameMap) (objects : List Object)
    (fov : Int → Int → Bool) (messages : Messages) :
    (fov (objGet objects monster_id).x (objGet objects monster_id).y = false →
       ai_take_turn monster_id m objects fov messages = (objects, messages)) ∧
    (fov (objGet objects monster_id).x (objGet objects monster_id).y = true →
       (objGet objects monster_id).dist_sq (objGet objects PLAYER) ≥ 4 →
       ai_take_turn monster_id m objects fov messages =
         (move_towards monster_id (objGet objects PLAYER).x (objGet objects PLAYER).y m objects,
           messages)) ∧
    (fov (objGet objects monster_id).x (objGet objects monster_id).y = true →
       ¬((objGet objects monster_id).dist_sq (objGet objects PLAYER) ≥ 4) →
       (∀ f, (objGet objects PLAYER).fighter = some f → 0 < f.hp →
          ai_take_turn monster_id m objects fov messages =
            attack_pair monster_id PLAYER objects messages) ∧
       (((objGet objects PLAYER).fighter = none ∨
          ∃ f, (objGet objects PLAYER).fighter = some f ∧ f.hp ≤ 0) →
          ai_take_turn monster_id m objects fov messages = (objects, messages))) ∧
    (move_towards monster_id (objGet objects PLAYER).x (objGet objects PLAYER).y m objects =
       (if is_blocked
             ((objGet objects monster_id).x +
               (if 4 * (((objGet objects PLAYER).x - (objGet objects monster_id).x) *
                   ((objGet objects PLAYER).x - (objGet objects monster_id).x)) ≥
                   ((objGet objects PLAYER).x - (objGet objects monster_id).x) *
                     ((objGet objects PLAYER).x - (objGet objects monster_id).x) +
                   ((objGet objects PLAYER).y - (objGet objects monster_id).y) *
                     ((objGet objects PLAYER).y - (objGet objects monster_id).y) then
                  ((objGet objects PLAYER).x - (objGet objects monster_id).x).sign
                else 0))
             ((objGet objects monster_id).y +
               (if 4 * (((objGet objects PLAYER).y - (objGet objects monster_id).y) *
                   ((objGet objects PLAYER).y - (objGet objects monster_id).y)) ≥
                   ((objGet objects PLAYER).x - (objGet objects monster_id).x) *
                     ((objGet objects PLAYER).x - (objGet objects monster_id).x) +
                   ((objGet objects PLAYER).y - (objGet objects monster_id).y) *
                     ((objGet objects PLAYER).y - (objGet objects monster_id).y) then
                  ((objGet objects PLAYER).y - (objGet objects monster_id).y).sign
                else 0))
             m objects
        then objects
        else objects.set monster_id
          ((objGet objects monster_id).set_pos
            ((objGet objects monster_id).x +
              (if 4 * (((objGet objects PLAYER).x - (objGet objects monster_id).x) *
                  ((objGet objects PLAYER).x - (objGet objects monster_id).x)) ≥
                  ((objGet objects PLAYER).x - (objGet objects monster_id).x) *
                    ((objGet objects PLAYER).x - (objGet objects monster_id).x) +
                  ((objGet objects PLAYER).y - (objGet objects monster_id).y) *
                    ((objGet objects PLAYER).y - (objGet objects monster_id).y) then
                 ((objGet objects PLAYER).x - (objGet objects monster_id).x).sign
               else 0))
            ((objGet objects monster_id).y +
              (if 4 * (((objGet objects PLAYER).y - (objGet objects monster_id).y) *
                  ((objGet objects PLAYER).y - (objGet objects monster_id).y)) ≥
                  ((objGet objects PLAYER).x - (objGet objects monster_id).x) *
                    ((objGet objects PLAYER).x - (objGet objects monster_id).x) +
                  ((objGet objects PLAYER).y - (objGet objects monster_id).y) *
                    ((objGet objects PLAYER).y - (objGet objects monster_id).y) then
                 ((objGet objects PLAYER).y - (objGet objects monster_id).y).sign
               else 0))))) := by
  refine ⟨?_, ?_, ?_, rfl⟩
  · intro h
    simp [ai_take_turn, h]
  · intro h hge
    simp only [ai_take_turn, h, if_true]
    rw [if_pos hge]
  · intro h hlt
    constructor
    · intro f hf hhp
      simp only [ai_take_turn, h, if_true]
      rw [if_neg hlt, hf]
      simp [hhp]
    · intro hcase
      simp only [ai_take_turn, h, if_true]
      rw [if_neg hlt]
      rcases hcase with hnone | ⟨f, hf, hle⟩
      · rw [hnone]
        rfl
      · rw [hf]
        have hng : ¬f.hp > 0 := by omega
        simp [hng]

theorem ai_decision_witness :
    ((fun _ _ => true : Int → Int → Bool) (objGet [samplePlayer, farOrc] 1).x
        (objGet [samplePlayer, farOrc] 1).y = true) ∧
    ((objGet [samplePlayer, farOrc] 1).dist_sq (objGet [samplePlayer, farOrc] PLAYER) ≥ 4) ∧
    (ai_take_turn 1 wallMap [samplePlayer, farOrc] (fun _ _ => true) [] =
      (move_towards 1 (objGet [samplePlayer, farOrc] PLAYER).x
          (objGet [samplePlayer, farOrc] PLAYER).y wallMap [samplePlayer, farOrc], [])) :=
  ⟨rfl, by decide,
    (ai_decision 1 wallMap [samplePlayer, farOrc] (fun _ _ => true) []).2.1 rfl (by decide)⟩

/-- Helper: the carving order on maps — carving operations only ever unblock
tiles, never block them. -/
def Carves (m m' : GameMap) : Prop :=
  ∀ x y, (m x y).blocked = false → (m' x y).blocked = false

theorem carves_rfl (m : GameMap) : Carves m m := fun _ _ h => h

theorem carves_trans {m1 m2 m3 : GameMap} (h1 : Carves m1 m2)
    (h2 : Carves m2 m3) : Carves m1 m3 :=
  fun x y h => h2 x y (h1 x y h)

theorem create_room_carves (r : Rect) (m : GameMap) :
    Carves m (create_room r m) := by
  intro x y h
  show (if _ then Tile.empty else m x y).blocked = false
  split
  · rfl
  · exact h

theorem create_h_tunnel_carves (x1 x2 y : Int) (m : GameMap) :
    Carves m (create_h_tunnel x1 x2 y m) := by
  intro a b h
  show (if _ then Tile.empty else m a b).blocked = false
  split
  · rfl
  · exact h

theorem create_v_tunnel_carves (y1 y2 x : Int) (m : GameMap) :
    Carves m (create_v_tunnel y1 y2 x m) := by
  intro a b h
  show (if _ then Tile.empty else m a b).blocked = false
  split
  · rfl
  · exact h

theorem h_tunnel_carved (x1 x2 y : Int) (m : GameMap) (a : Int)
    (h1 : min x1 x2 ≤ a) (h2 : a ≤ max x1 x2) :
    carvedAt (create_h_tunnel x1 x2 y m) (a, y) := by
  unfold carvedAt create_h_tunnel
  rw [if_pos ⟨h1, h2, rfl⟩]
  rfl

theorem v_tunnel_carved (y1 y2 x : Int) (m : GameMap) (b : Int)
    (h1 : min y1 y2 ≤ b) (h2 : b ≤ max y1 y2) :
    carvedAt (create_v_tunnel y1 y2 x m) (x, b) := by
  unfold carvedAt create_v_tunnel
  rw [if_pos ⟨rfl, h1, h2⟩]
  rfl

/-- Helper: the center of a room whose sides are at least 2 long (with
nonnegative origin, as the generator guarantees) lies in the carved strict
interior. -/
theorem room_center_carved (r : Rect) (m : GameMap)
    (hx0 : 0 ≤ r.x1) (hy0 : 0 ≤ r.y1)
    (hx : r.x1 + 2 ≤ r.x2) (hy : r.y1 + 2 ≤ r.y2) :
    carvedAt (create_room r m) r.center := by
  have htd : ∀ a : Int, 0 ≤ a → a.tdiv 2 = a / 2 := by
    intro a ha
    rcases a with n | n
    · rfl
    · exact absurd ha (Int.negSucc_lt_zero n).not_le
  unfold carvedAt create_room Rect.center
  rw [htd _ (by omega), htd _ (by omega)]
  rw [if_pos ⟨by omega, by omega, by omega, by omega⟩]
  rfl

theorem mapStep_symm (m : GameMap) : Symmetric (MapStep m) := by
  intro p q hpq
  obtain ⟨hp, hq, hadj⟩ := hpq
  refine ⟨hq, hp, ?_⟩
  unfold Adj at hadj ⊢
  omega

theorem reachable_symm {m : GameMap} {p q : Int × Int}
    (h : Reachable m p q) : Reachable m q p :=
  Relation.ReflTransGen.symmetric (mapStep_symm m) h

theorem reachable_mono {m m' : GameMap} (hc : Carves m m') {p q : Int × Int}
    (h : Reachable m p q) : Reachable m' p q := by
  refine Relation.ReflTransGen.mono ?_ h
  intro a b hab
  obtain ⟨h1, h2, h3⟩ := hab
  exact ⟨hc _ _ h1, hc _ _ h2, h3⟩

/-- Helper: a rightward run of carved tiles is walkable. -/
theorem reach_right (m : GameMap) (x y : Int) (n : Nat)
    (h : ∀ i : Nat, i ≤ n → carvedAt m (x + i, y)) :
    Reachable m (x, y) (x + n, y) := by
  induction n with
  | zero => simpa using Relation.ReflTransGen.refl
  | succ k ih =>
      refine Relation.ReflTransGen.tail (ih fun i hi => h i (by omega)) ?_
      refine ⟨h k (by omega), h (k + 1) (by omega), ?_⟩
      unfold Adj
      push_cast
      omega

/-- Helper: an upward run of carved tiles is walkable. -/
theorem reach_up (m : GameMap) (x y : Int) (n : Nat)
    (h : ∀ i : Nat, i ≤ n → carvedAt m (x, y + i)) :
    Reachable m (x, y) (x, y + n) := by
  induction n with
  | zero => simpa using Relation.ReflTransGen.refl
  | succ k ih =>
      refine Relation.ReflTransGen.tail (ih fun i hi => h i (by omega)) ?_
      refine ⟨h k (by omega), h (k + 1) (by omega), ?_⟩
      unfold Adj
      push_cast
      omega

/-- Helper: a fully carved horizontal segment connects its endpoints. -/
theorem reach_h (m : GameMap) (x1 x2 y : Int)
    (h : ∀ a : Int, min x1 x2 ≤ a → a ≤ max x1 x2 → carvedAt m (a, y)) :
    Reachable m (x1, y) (x2, y) := by
  rcases le_total x1 x2 with hle | hle
  · have h2 : x2 = x1 + ((x2 - x1).toNat : Int) := by omega
    rw [h2]
    refine reach_right m x1 y _ fun i hi => h _ (by omega) (by omega)
  · have h2 : x1 = x2 + ((x1 - x2).toNat : Int) := by omega
    refine reachable_symm ?_
    rw [h2]
    refine reach_right m x2 y _ fun i hi => h _ (by omega) (by omega)

/-- Helper: a fully carved vertical segment connects its endpoints. -/
theorem reach_v (m : GameMap) (x y1 y2 : Int)
    (h : ∀ b : Int, min y1 y2 ≤ b → b ≤ max y1 y2 → carvedAt m (x, b)) :
    Reachable m (x, y1) (x, y2) := by
  rcases le_total y1 y2 with hle | hle
  · have h2 : y2 = y1 + ((y2 - y1).toNat : Int) := by omega
    rw [h2]
    refine reach_up m x y1 _ fun i hi => h _ (by omega) (by omega)
  · have h2 : y1 = y2 + ((y1 - y2).toNat : Int) := by omega
    refine reachable_symm ?_
    rw [h2]
    refine reach_up m x y2 _ fun i hi => h _ (by omega) (by omega)

/-- Helper: the horizontal-then-vertical dog-leg connects the two centers. -/
theorem tunnels_connect_hv (px py nx ny : Int) (m : GameMap) :
    Reachable (create_v_tunnel py ny nx (create_h_tunnel px nx py m))
      (px, py) (nx, ny) := by
  refine Relation.ReflTransGen.trans (b := (nx, py)) ?_ ?_
  · refine reach_h _ px nx py fun a h1 h2 => ?_
    exact create_v_tunnel_carves py ny nx _ a py (h_tunnel_carved px nx py m a h1 h2)
  · exact reach_v _ nx py ny fun b h1 h2 => v_tunnel_carved py ny nx _ b h1 h2

/-- Helper: the vertical-then-horizontal dog-leg connects the two centers. -/
theorem tunnels_connect_vh (px py nx ny : Int) (m : GameMap) :
    Reachable (create_h_tunnel px nx ny (create_v_tunnel py ny px m))
      (px, py) (nx, ny) := by
  refine Relation.ReflTransGen.trans (b := (px, ny)) ?_ ?_
  · refine reach_v _ px py ny fun b h1 h2 => ?_
    exact create_h_tunnel_carves px nx ny _ px b (v_tunnel_carved py ny px m b h1 h2)
  · exact reach_h _ px nx ny fun a h1 h2 => h_tunnel_carved px nx ny _ a h1 h2

/-- Helper: the rejected-candidate step of the `make_map` loop. -/
theorem make_map_loop_cons_rej (d : RoomDraw) (rest : List RoomDraw)
    (rooms : List Rect) (m : GameMap)
    (h : rooms.any (fun other_room => d.room.intersects_with other_room) = true) :
    make_map_loop (d :: rest) rooms m = make_map_loop rest rooms m := by
  simp only [make_map_loop]
  rw [if_pos h]

/-- Helper: the first-accepted-room step of the `make_map` loop (no
predecessor: no corridor, just the room carving). -/
theorem make_map_loop_cons_first (d : RoomDraw) (rest : List RoomDraw)
    (m : GameMap) :
    make_map_loop (d :: rest) [] m =
      make_map_loop rest [d.room] (create_room d.room m) := by
  simp only [make_map_loop]
  rw [if_neg (by simp)]

/-- Helper: the accepted-room step of the `make_map` loop with a predecessor:
carve the room, then the coin-directed L-corridor to the predecessor's
center. -/
theorem make_map_loop_cons_acc (d : RoomDraw) (rest : List RoomDraw)
    (prev : Rect) (tail : List Rect) (m : GameMap)
    (h : (prev :: tail).any (fun other_room => d.room.intersects_with other_room) = false) :
    make_map_loop (d :: rest) (prev :: tail) m =
      make_map_loop rest (d.room :: prev :: tail)
        (if d.coin = true then
          create_v_tunnel prev.center.2 d.room.center.2 d.room.center.1
            (create_h_tunnel prev.center.1 d.room.center.1 prev.center.2
              (create_room d.room m))
        else
          create_h_tunnel prev.center.1 d.room.center.1 d.room.center.2
            (create_v_tunnel prev.center.2 d.room.center.2 prev.center.1
              (create_room d.room m))) := by
  simp only [make_map_loop]
  rw [if_neg (by simp [h])]

/-- Helper: the `make_map` loop invariant — all accepted room centers are
carved and mutually reachable, and the loop preserves this. -/
theorem make_map_loop_inv (draws : List RoomDraw) :
    ∀ (rooms : List Rect) (m : GameMap),
    (∀ d ∈ draws, 0 ≤ d.room.x1 ∧ 0 ≤ d.room.y1 ∧
        d.room.x1 + 2 ≤ d.room.x2 ∧ d.room.y1 + 2 ≤ d.room.y2) →
    (∀ r ∈ rooms, carvedAt m r.center) →
    (∀ r ∈ rooms, ∀ r' ∈ rooms, Reachable m r.center r'.center) →
    (∀ r ∈ (make_map_loop draws rooms m).1,
        carvedAt (make_map_loop draws rooms m).2 r.center) ∧
    (∀ r ∈ (make_map_loop draws rooms m).1, ∀ r' ∈ (make_map_loop draws rooms m).1,
        Reachable (make_map_loop draws rooms m).2 r.center r'.center) := by
  induction draws with
  | nil =>
      intro rooms m _ hc hr
      exact ⟨hc, hr⟩
  | cons d rest ih =>
      intro rooms m hwf hc hr
      have hwf' : ∀ d' ∈ rest, 0 ≤ d'.room.x1 ∧ 0 ≤ d'.room.y1 ∧
          d'.room.x1 + 2 ≤ d'.room.x2 ∧ d'.room.y1 + 2 ≤ d'.room.y2 :=
        fun d' hd' => hwf d' (List.mem_cons_of_mem _ hd')
      have hd : 0 ≤ d.room.x1 ∧ 0 ≤ d.room.y1 ∧
          d.room.x1 + 2 ≤ d.room.x2 ∧ d.room.y1 + 2 ≤ d.room.y2 :=
        hwf d (List.mem_cons_self _ _)
      by_cases hint : rooms.any (fun other_room => d.room.intersects_with other_room) = true
      · rw [make_map_loop_cons_rej d rest rooms m hint]
        exact ih rooms m hwf' hc hr
      · rcases rooms with _ | ⟨prev, tail⟩
        · -- first accepted room
          rw [make_map_loop_cons_first d rest m]
          refine ih [d.room] (create_room d.room m) hwf' ?_ ?_
          · intro r hrm
            rcases List.mem_singleton.mp hrm with rfl
            exact room_center_carved _ _ hd.1 hd.2.1 hd.2.2.1 hd.2.2.2
          · intro r hrm r' hrm'
            rcases List.mem_singleton.mp hrm with rfl
            rcases List.mem_singleton.mp hrm' with rfl
            exact Relation.ReflTransGen.refl
        · -- connected to the previous accepted room
          rw [make_map_loop_cons_acc d rest prev tail m (by simpa using hint)]
          set m1 := create_room d.room m with hm1
          have hcm1 : Carves m m1 := create_room_carves d.room m
          by_cases hcoin : d.coin = true
          · rw [if_pos hcoin]
            set m2 := create_v_tunnel prev.center.2 d.room.center.2 d.room.center.1
              (create_h_tunnel prev.center.1 d.room.center.1 prev.center.2 m1) with hm2
            have hcm2 : Carves m m2 :=
              carves_trans hcm1 (carves_trans
                (create_h_tunnel_carves prev.center.1 d.room.center.1 prev.center.2 m1)
                (create_v_tunnel_carves prev.center.2 d.room.center.2 d.room.center.1 _))
            have hc1m2 : Carves m1 m2 :=
              carves_trans
                (create_h_tunnel_carves prev.center.1 d.room.center.1 prev.center.2 m1)
                (create_v_tunnel_carves prev.center.2 d.room.center.2 d.room.center.1 _)
            have htun : Reachable m2 prev.center d.room.center := by
              have := tunnels_connect_hv prev.center.1 prev.center.2
                d.room.center.1 d.room.center.2 m1
              simpa only [Prod.mk.eta] using this
            refine ih (d.room :: prev :: tail) m2 hwf' ?_ ?_
            · intro r hrm
              rcases List.mem_cons.mp hrm with rfl | hrm
              · exact hc1m2 _ _ (room_center_carved _ _ hd.1 hd.2.1 hd.2.2.1 hd.2.2.2)
              · exact hcm2 _ _ (hc r hrm)
            · intro r hrm r' hrm'
              have hreach_d : ∀ r'' ∈ prev :: tail, Reachable m2 d.room.center r''.center := by
                intro r'' hrm''
                refine Relation.ReflTransGen.trans (reachable_symm htun) ?_
                exact reachable_mono hcm2 (hr prev (List.mem_cons_self _ _) r'' hrm'')
              rcases List.mem_cons.mp hrm with rfl | hrm
              · rcases List.mem_cons.mp hrm' with rfl | hrm'
                · exact Relation.ReflTransGen.refl
                · exact hreach_d r' hrm'
              · rcases List.mem_cons.mp hrm' with rfl | hrm'
                · exact reachable_symm (hreach_d r hrm)
                · exact reachable_mono hcm2 (hr r hrm r' hrm')
          · rw [if_neg hcoin]
            set m2 := create_h_tunnel prev.center.1 d.room.center.1 d.room.center.2
              (create_v_tunnel prev.center.2 d.room.center.2 prev.center.1 m1) with hm2
            have hcm2 : Carves m m2 :=
              carves_trans hcm1 (carves_trans
                (create_v_tunnel_carves prev.center.2 d.room.center.2 prev.center.1 m1)
                (create_h_tunnel_carves prev.center.1 d.room.center.1 d.room.center.2 _))
            have hc1m2 : Carves m1 m2 :=
              carves_trans
                (create_v_tunnel_carves prev.center.2 d.room.center.2 prev.center.1 m1)
                (create_h_tunnel_carves prev.center.1 d.room.center.1 d.room.center.2 _)
            have htun : Reachable m2 prev.center d.room.center := by
              have := tunnels_connect_vh prev.center.1 prev.center.2
                d.room.center.1 d.room.center.2 m1
              simpa only [Prod.mk.eta] using this
            refine ih (d.room :: prev :: tail) m2 hwf' ?_ ?_
            · intro r hrm
              rcases List.mem_cons.mp hrm with rfl | hrm
              · exact hc1m2 _ _ (room_center_carved _ _ hd.1 hd.2.1 hd.2.2.1 hd.2.2.2)
              · exact hcm2 _ _ (hc r hrm)
            · intro r hrm r' hrm'
              have hreach_d : ∀ r'' ∈ prev :: tail, Reachable m2 d.room.center r''.center := by
                intro r'' hrm''
                refine Relation.ReflTransGen.trans (reachable_symm htun) ?_
                exact reachable_mono hcm2 (hr prev (List.mem_cons_self _ _) r'' hrm'')
              rcases List.mem_cons.mp hrm with rfl | hrm
              · rcases List.mem_cons.mp hrm' with rfl | hrm'
                · exact Relation.ReflTransGen.refl
                · exact hreach_d r' hrm'
              · rcases List.mem_cons.mp hrm' with rfl | hrm'
                · exact reachable_symm (hreach_d r hrm)
                · exact reachable_mono hcm2 (hr r hrm r' hrm')

/-- Helper: a successful `getLast?` yields a member of the list. -/
theorem mem_of_getLast?_some {α : Type} {l : List α} {a : α}
    (h : l.getLast? = some a) : a ∈ l := by
  obtain ⟨hne, heq⟩ := List.mem_getLast?_eq_getLast (Option.mem_def.mpr h)
  rw [heq]
  exact List.getLast_mem hne

/-- C7: in every generated map, every accepted room's center is carved and
reachable from the first accepted room's center through non-blocked tiles
only (the generation chain connects each accepted room to its immediate
predecessor by an L-shaped corridor, and carving is monotone, so the chain
survives to the final map). `make_map` accumulates accepted rooms
most-recent-first, so the first accepted room is the `getLast?` of the
returned list. The hypothesis states what the generator's `gen_range` calls
guarantee: candidate rooms have nonnegative origin and sides ≥ 2 (actual
sides are 6–10). -/
theorem make_map_rooms_connected (draws : List RoomDraw)
    (hwf : ∀ d ∈ draws, 0 ≤ d.room.x1 ∧ 0 ≤ d.room.y1 ∧
        d.room.x1 + 2 ≤ d.room.x2 ∧ d.room.y1 + 2 ≤ d.room.y2)
    (first : Rect) (hfirst : (make_map draws).1.getLast? = some first) :
    ∀ r ∈ (make_map draws).1,
      carvedAt (make_map draws).2 r.center ∧
      Reachable (make_map draws).2 first.center r.center := by
  have hinv := make_map_loop_inv draws [] (fun _ _ => Tile.wall) hwf
    (by simp) (by simp)
  intro r hrm
  have hfm : first ∈ (make_map draws).1 := mem_of_getLast?_some hfirst
  exact ⟨hinv.1 r hrm, hinv.2 first hfm r hrm⟩

theorem make_map_rooms_connected_witness :
    ((make_map sampleDraws).1.getLast? = some (Rect.new 0 0 2 2)) ∧
    (∀ r ∈ (make_map sampleDraws).1,
       carvedAt (make_map sampleDraws).2 r.center ∧
       Reachable (make_map sampleDraws).2 (Rect.new 0 0 2 2).center r.center) :=
  ⟨by decide,
    make_map_rooms_connected sampleDraws (by decide) (Rect.new 0 0 2 2) (by decide)⟩

theorem hp_bounds_amended_witness :
    sampleOrc.fighter = some ⟨10, 10, 0, 3, .Monster⟩ ∧
    sampleTroll.fighter = some ⟨16, 16, 1, 4, .Monster⟩ ∧
    ((16 : Int) ≤ 16) ∧ ((0 : Int) < 16) ∧
    ((∀ g, (sampleOrc.attack sampleTroll []).1.fighter = some g →
        g.hp ≤ g.max_hp ∧ ((Fighter.on_death ⟨16, 16, 1, 4, .Monster⟩) = .Monster → 0 < g.hp)) ∧
     (∀ g, (samplePlayer.heal 4).fighter = some g → g.hp ≤ g.max_hp)) :=
  ⟨rfl, rfl, by decide, by decide,
    hp_bounds_amended sampleOrc sampleTroll samplePlayer ⟨10, 10, 0, 3, .Monster⟩
      ⟨16, 16, 1, 4, .Monster⟩ 4 [] rfl rfl (by decide) (by decide)⟩

end Dragonslayer
